import Mathlib

/-!
Shallow embedding of the NodeHealthCheck controller of the
node-healthcheck-operator repository (file
controllers/nodehealthcheck_controller.go).

Time is modelled as Int, in nanoseconds, exactly as Go's time package
counts: t.After(u) is u < t, t.Add(d) is t + d, one microsecond is 1000,
time.Minute is 60000000000.  Node and policy fields that the verified
functions never read are omitted.
-/

namespace Medik8s

/-- Constant block of the controller file, with durations in nanoseconds. -/
def oldRemediationCRAnnotationKey : String := "nodehealthcheck.medik8s.io/old-remediation-cr-flag"

def templateSuffix : String := "Template"

def timeMicrosecond : Int := 1000

def timeMinute : Int := 60000000000

def timeHour : Int := 3600000000000

def remediationCRAlertTimeout : Int := 48 * timeHour

def eventReasonRemediationCreated : String := "RemediationCreated"

def eventReasonRemediationSkipped : String := "RemediationSkipped"

def eventReasonRemediationRemoved : String := "RemediationRemoved"

def eventTypeNormal : String := "Normal"

def eventTypeWarning : String := "Warning"

/-- One entry of a node's status.conditions: type, status and the
lastTransitionTime, as read by isHealthy. -/
structure NodeCondition where
  type : String
  status : String
  lastTransitionTime : Int
deriving DecidableEq

/-- One entry of the policy's spec.unhealthyConditions: condition type,
expected status, and the minimum duration in nanoseconds. -/
structure UnhealthyCondition where
  type : String
  status : String
  duration : Int
deriving DecidableEq

/-- The nodeConditionByType map built at the top of isHealthy: a Go map
written in iteration order, so a later condition of the same type
overwrites an earlier one; lookup returns the last entry of that type. -/
def condByType (nodeConditions : List NodeCondition) (t : String) : Option NodeCondition :=
  nodeConditions.foldl (fun acc nc => if nc.type == t then some nc else acc) none

/-- Body of the isHealthy loop for one unhealthyConditions entry c: the node
has a condition of c's type, its status equals c's status, and
now.After(lastTransitionTime.Add(duration)) holds, Go's After being a
strict comparison. -/
def conditionTriggers (now : Int) (nodeConditions : List NodeCondition)
    (c : UnhealthyCondition) : Bool :=
  match condByType nodeConditions c.type with
  | none => false
  | some n => n.status == c.status && decide (n.lastTransitionTime + c.duration < now)

/-- Translation of isHealthy: healthy unless some unhealthyConditions entry
triggers on the node's conditions. -/
def isHealthy (now : Int) (conditionTests : List UnhealthyCondition)
    (nodeConditions : List NodeCondition) : Bool :=
  !(conditionTests.any (conditionTriggers now nodeConditions))

/-- Written from the claim C1's words, only to state its counterexample: the
claim classifies a node unhealthy when some entry's type has a node
condition of equal status with now - lastTransitionTime >= minimumDuration,
a non-strict comparison. -/
def claimUnhealthyCriterion (now : Int) (conditionTests : List UnhealthyCondition)
    (nodeConditions : List NodeCondition) : Bool :=
  conditionTests.any fun c =>
    match condByType nodeConditions c.type with
    | none => false
    | some n => n.status == c.status && decide (c.duration ≤ now - n.lastTransitionTime)

/-- Owner reference metadata entry of a cluster object. -/
structure OwnerRef where
  apiVersion : String
  kind : String
  name : String
  uid : String
  controller : Option Bool
  blockOwnerDeletion : Option Bool
deriving DecidableEq

/-- The NodeHealthCheck policy identity fields the verified functions read. -/
structure NodeHealthCheck where
  apiVersion : String
  kind : String
  name : String
  uid : String
deriving DecidableEq

/-- Payload extracted from the template object's spec.template: an opaque
spec document plus the metadata.annotations it may carry (the code
overwrites name, namespace, GVK, owner references and labels, but not the
annotations). -/
structure TemplateSpec where
  payload : String
  annotations : List (String × String)
deriving DecidableEq

/-- The remediation template object as fetched by fetchTemplate: its
GroupVersionKind, its namespace (ns, a Lean keyword forbids the Go field
name), and the nested spec.template map, none when that path is absent. -/
structure TemplateObj where
  group : String
  version : String
  kind : String
  ns : String
  templateSpec : Option TemplateSpec
deriving DecidableEq

/-- The materialised remediation request object: the unstructured-object
fields the controller reads or writes. -/
structure RemediationCR where
  group : String
  version : String
  kind : String
  name : String
  ns : String
  spec : String
  ownerRefs : List OwnerRef
  labels : List (String × String)
  annotations : List (String × String)
  creationTimestamp : Int
  deletionTimestamp : Option Int
deriving DecidableEq

/-- Go's strings.TrimSuffix: drop the suffix when s ends with it, else
return s unchanged. -/
def trimSuffix (s suffix : String) : String :=
  if suffix.data.isSuffixOf s.data then
    String.mk (s.data.take (s.data.length - suffix.data.length))
  else s

/-- Construction step of generateRemediationCR once spec.template was
found: name from the node, namespace from the template, group and version
copied, kind with the trailing Template suffix removed, the policy as the
single owner reference (non-controller, block-owner-deletion unset), the
fixed part-of label, a fresh creationTimestamp. -/
def crOfTemplate (nodeName : String) (now : Int) (nhc : NodeHealthCheck)
    (t : TemplateObj) (ts : TemplateSpec) : RemediationCR :=
  { group := t.group
    version := t.version
    kind := trimSuffix t.kind templateSuffix
    name := nodeName
    ns := t.ns
    spec := ts.payload
    ownerRefs := [{ apiVersion := nhc.apiVersion, kind := nhc.kind, name := nhc.name,
                    uid := nhc.uid, controller := some false, blockOwnerDeletion := none }]
    labels := [("app.kubernetes.io/part-of", "node-healthcheck-controller")]
    annotations := ts.annotations
    creationTimestamp := now
    deletionTimestamp := none }

/-- Translation of generateRemediationCR: retrieving spec.template fails
with an error, modelled none, when the path is absent; otherwise the
object is built by crOfTemplate.  The clearing of resourceVersion,
finalizers, uid and selfLink concerns fields the model does not carry. -/
def generateRemediationCR (nodeName : String) (now : Int) (nhc : NodeHealthCheck)
    (t : TemplateObj) : Option RemediationCR :=
  (t.templateSpec).map (crOfTemplate nodeName now nhc t)

/-- Get by key against the store of objects of the remediation kind in the
template's namespace, keyed by metadata.name. -/
def getCR : List RemediationCR → String → Option RemediationCR
  | [], _ => none
  | cr :: rest, n => if cr.name == n then some cr else getCR rest n

/-- Deletion by key against the store. -/
def deleteCR : List RemediationCR → String → List RemediationCR
  | [], _ => []
  | cr :: rest, n => if cr.name == n then deleteCR rest n else cr :: deleteCR rest n

/-- In-place update of the object of that name. -/
def updateCR : List RemediationCR → RemediationCR → List RemediationCR
  | [], _ => []
  | c :: rest, cr => (if c.name == cr.name then cr else c) :: updateCR rest cr

/-- Body of markHealthy after generateRemediationCR succeeded: get the
object by its key; when absent or already carrying a deletionTimestamp,
succeed without deleting; otherwise delete it and emit
RemediationRemoved.  Events are (type, reason) pairs. -/
def markHealthyCore (n : String) (store : List RemediationCR) :
    List RemediationCR × List (String × String) :=
  match getCR store n with
  | none => (store, [])
  | some cr =>
    if cr.deletionTimestamp.isSome then (store, [])
    else (deleteCR store n, [(eventTypeNormal, eventReasonRemediationRemoved)])

/-- Translation of markHealthy: generate the object for its key (an error
there aborts, modelled none), then the get-check-delete sequence of
markHealthyCore. -/
def markHealthy (n : String) (now : Int) (nhc : NodeHealthCheck) (t : TemplateObj)
    (store : List RemediationCR) :
    Option (List RemediationCR × List (String × String)) :=
  (generateRemediationCR n now nhc t).map (fun _ => markHealthyCore n store)

/-- Association-list model of a Go map with string keys: lookup. -/
def mapLookup {V : Type} : List (String × V) → String → Option V
  | [], _ => none
  | kv :: rest, k => if kv.1 == k then some kv.2 else mapLookup rest k

/-- Association-list model of a Go map with string keys: insertion,
overwriting an existing key. -/
def insertMap {V : Type} : List (String × V) → String → V → List (String × V)
  | [], k, v => [(k, v)]
  | kv :: rest, k, v => if kv.1 == k then (k, v) :: rest else kv :: insertMap rest k v

/-- Translation of alertOldRemediationCR: when the object is older than the
48h timeout and does not yet carry the old-remediation-cr-flag, set the
flag to "flagon" (the Client.Update modelled as succeeding) and report an
alert; once the flag is present do nothing; while the object is not yet
old, report the requeue delay timeout - (now - creationTimestamp) + one
minute.  Result: the possibly updated object, isSendAlert,
nextReconcile. -/
def alertOldRemediationCR (now : Int) (cr : RemediationCR) :
    RemediationCR × Bool × Option Int :=
  if cr.creationTimestamp + remediationCRAlertTimeout < now then
    if (mapLookup cr.annotations oldRemediationCRAnnotationKey).isSome then (cr, false, none)
    else
      ({ cr with annotations := insertMap cr.annotations oldRemediationCRAnnotationKey "flagon" },
        true, none)
  else (cr, false, some (remediationCRAlertTimeout - (now - cr.creationTimestamp) + timeMinute))

/-- Marker recorded when metrics.ObserveNodeHealthCheckOldRemediationCR is
called. -/
def metricObserveOldRemediationCR : String × String := ("Metric", "observeOldRemediationCR")

/-- Body of remediate after generateRemediationCR succeeded: get the object
by its key; when the get reports not-found, create the object and emit
RemediationCreated; when the object exists, run the stale-object alert on
the live object (updating it in place) and return its requeue hint, the
metric sample observed exactly when the alert fired. -/
def remediateCore (cr : RemediationCR) (now : Int) (store : List RemediationCR) :
    List RemediationCR × List (String × String) × Option Int :=
  match getCR store cr.name with
  | none => (store ++ [cr], [(eventTypeNormal, eventReasonRemediationCreated)], none)
  | some existing =>
    let a := alertOldRemediationCR now existing
    (updateCR store a.1, (if a.2.1 then [metricObserveOldRemediationCR] else []), a.2.2)

/-- Translation of remediate. -/
def remediate (n : String) (now : Int) (nhc : NodeHealthCheck) (t : TemplateObj)
    (store : List RemediationCR) :
    Option (List RemediationCR × List (String × String) × Option Int) :=
  (generateRemediationCR n now nhc t).map (fun cr => remediateCore cr now store)

/-- Translation of isClusterUpgrading: the checker returns (upgrading,
error); the error is only logged, and the decision follows the returned
boolean alone. -/
def isClusterUpgrading (check : Bool × Option String) : Bool :=
  if check.1 then true else false

/-- Outcome of shouldTryRemediation: the boolean, the requeueAfter the gate
writes into the reconcile result, and the events it emits. -/
structure GateResult where
  tryRemediation : Bool
  requeueAfter : Option Int
  events : List (String × String)
deriving DecidableEq

/-- Translation of shouldTryRemediation over the counts it reads: no
unhealthy nodes means no remediation; with healthyNodes = numNodes -
numUnhealthy at or above minHealthy, pause requests or a cluster upgrade
skip with a normal RemediationSkipped event, the upgrade case also
requeueing after one minute; below the threshold a RemediationSkipped
warning is emitted and no remediation happens. -/
def shouldTryRemediation (numNodes numUnhealthy minHealthy : Nat)
    (pauseRequests : List String) (upgradeCheck : Bool × Option String) : GateResult :=
  if numUnhealthy = 0 then ⟨false, none, []⟩
  else
    let healthyNodes := numNodes - numUnhealthy
    if minHealthy ≤ healthyNodes then
      if 0 < pauseRequests.length then
        ⟨false, none, [(eventTypeNormal, eventReasonRemediationSkipped)]⟩
      else if isClusterUpgrading upgradeCheck then
        ⟨false, some timeMinute, [(eventTypeNormal, eventReasonRemediationSkipped)]⟩
      else ⟨true, none, []⟩
    else ⟨false, none, [(eventTypeWarning, eventReasonRemediationSkipped)]⟩

/-- The policy's minHealthy field: an absolute integer or a percentage. -/
inductive IntOrPercent where
  | intVal (v : Nat)
  | percent (p : Nat)
deriving DecidableEq

/-- Model of k8s intstr.GetScaledValueFromIntOrPercent with roundUp true,
on the non-negative values admission allows: an integer passes through, a
percentage p becomes ceil(p * total / 100). -/
def getScaledValueFromIntOrPercent (x : IntOrPercent) (total : Nat) : Nat :=
  match x with
  | .intVal v => v
  | .percent p => (p * total + 99) / 100

/-- A selected node: its name and its status.conditions. -/
structure Node where
  name : String
  conditions : List NodeCondition
deriving DecidableEq

/-- Body of checkNodesHealth once the template is known well-formed: for
each node in order, a healthy node goes through markHealthyCore, an
unhealthy node ignored by the MHC checker is skipped, any other unhealthy
node is collected.  Result: the store, the unhealthy nodes, the events. -/
def checkNodesHealthCore (now : Int) (tests : List UnhealthyCondition)
    (ignore : String → Bool) :
    List Node → List RemediationCR → List RemediationCR × List Node × List (String × String)
  | [], store => (store, [], [])
  | nd :: rest, store =>
    if isHealthy now tests nd.conditions then
      let m := markHealthyCore nd.name store
      let r := checkNodesHealthCore now tests ignore rest m.1
      (r.1, r.2.1, m.2 ++ r.2.2)
    else if ignore nd.name then checkNodesHealthCore now tests ignore rest store
    else
      let r := checkNodesHealthCore now tests ignore rest store
      (r.1, nd :: r.2.1, r.2.2)

/-- Translation of checkNodesHealth: as checkNodesHealthCore, with a
markHealthy error (a malformed template) aborting the whole pass. -/
def checkNodesHealth (now : Int) (tests : List UnhealthyCondition)
    (ignore : String → Bool) (nhc : NodeHealthCheck) (t : TemplateObj) :
    List Node → List RemediationCR →
      Option (List RemediationCR × List Node × List (String × String))
  | [], store => some (store, [], [])
  | nd :: rest, store =>
    if isHealthy now tests nd.conditions then
      match markHealthy nd.name now nhc t store with
      | none => none
      | some m =>
        match checkNodesHealth now tests ignore nhc t rest m.1 with
        | none => none
        | some r => some (r.1, r.2.1, m.2 ++ r.2.2)
    else if ignore nd.name then checkNodesHealth now tests ignore nhc t rest store
    else
      match checkNodesHealth now tests ignore nhc t rest store with
      | none => none
      | some r => some (r.1, nd :: r.2.1, r.2.2)

/-- The remediate fan-out of Reconcile over the unhealthy nodes, once the
template is known well-formed (requeue hints are aggregated by the caller
and not needed by any claim, so they are dropped here). -/
def remediateAllCore (now : Int) (nhc : NodeHealthCheck) (t : TemplateObj)
    (ts : TemplateSpec) :
    List Node → List RemediationCR → List RemediationCR × List (String × String)
  | [], store => (store, [])
  | nd :: rest, store =>
    let r := remediateCore (crOfTemplate nd.name now nhc t ts) now store
    let rr := remediateAllCore now nhc t ts rest r.1
    (rr.1, r.2.1 ++ rr.2)

/-- The remediate fan-out of Reconcile, a remediate error aborting it. -/
def remediateAll (now : Int) (nhc : NodeHealthCheck) (t : TemplateObj) :
    List Node → List RemediationCR →
      Option (List RemediationCR × List (String × String))
  | [], store => some (store, [])
  | nd :: rest, store =>
    match remediate nd.name now nhc t store with
    | none => none
    | some r =>
      match remediateAll now nhc t rest r.1 with
      | none => none
      | some rr => some (rr.1, r.2.1 ++ rr.2)

/-- Store and events left by the remediation pipeline of one Reconcile. -/
structure ReconcileOut where
  store : List RemediationCR
  events : List (String × String)
deriving DecidableEq

/-- Translation of the remediation pipeline of Reconcile: classify the
nodes (deleting leftover objects of healthy nodes as a side effect of that
very pass), compute minHealthy with rounding up, consult
shouldTryRemediation, and only when it allows remediate each surviving
unhealthy node in order.  The in-flight census and the status patch are
modelled separately (getInflightRemediations, patchStatus). -/
def reconcile (now : Int) (tests : List UnhealthyCondition) (ignore : String → Bool)
    (minHealthySpec : IntOrPercent) (pauseRequests : List String)
    (upgradeCheck : Bool × Option String) (nhc : NodeHealthCheck) (t : TemplateObj)
    (nodes : List Node) (store : List RemediationCR) : Option ReconcileOut :=
  match checkNodesHealth now tests ignore nhc t nodes store with
  | none => none
  | some r =>
    let minHealthy := getScaledValueFromIntOrPercent minHealthySpec nodes.length
    let gate := shouldTryRemediation nodes.length r.2.1.length minHealthy
      pauseRequests upgradeCheck
    if gate.tryRemediation then
      match remediateAll now nhc t r.2.1 r.1 with
      | none => none
      | some rr => some ⟨rr.1, r.2.2 ++ gate.events ++ rr.2⟩
    else some ⟨r.1, r.2.2 ++ gate.events⟩

/-- The same pipeline written over the cores, used to reason about
reconcile once the template is known well-formed. -/
def reconcileCore (now : Int) (tests : List UnhealthyCondition) (ignore : String → Bool)
    (minHealthySpec : IntOrPercent) (pauseRequests : List String)
    (upgradeCheck : Bool × Option String) (nhc : NodeHealthCheck) (t : TemplateObj)
    (ts : TemplateSpec) (nodes : List Node) (store : List RemediationCR) : ReconcileOut :=
  let r := checkNodesHealthCore now tests ignore nodes store
  let minHealthy := getScaledValueFromIntOrPercent minHealthySpec nodes.length
  let gate := shouldTryRemediation nodes.length r.2.1.length minHealthy
    pauseRequests upgradeCheck
  if gate.tryRemediation then
    let rr := remediateAllCore now nhc t ts r.2.1 r.1
    ⟨rr.1, r.2.2 ++ gate.events ++ rr.2⟩
  else ⟨r.1, r.2.2 ++ gate.events⟩

/-- Owner-reference test of getInflightRemediations: name, kind and
apiVersion of the policy; the UID is not consulted. -/
def ownerRefMatches (nhc : NodeHealthCheck) (o : OwnerRef) : Bool :=
  o.name == nhc.name && o.kind == nhc.kind && o.apiVersion == nhc.apiVersion

/-- Loop of getInflightRemediations over the listed objects, threading the
Go map being built: an object with some matching owner reference is
recorded under its name with its creationTimestamp. -/
def inflightLoop (nhc : NodeHealthCheck) :
    List RemediationCR → List (String × Int) → List (String × Int)
  | [], m => m
  | cr :: rest, m =>
    inflightLoop nhc rest
      (if cr.ownerRefs.any (ownerRefMatches nhc) then
        insertMap m cr.name cr.creationTimestamp
      else m)

/-- Translation of getInflightRemediations, over the listed items of the
policy's referenced kind and apiVersion. -/
def getInflightRemediations (nhc : NodeHealthCheck) (items : List RemediationCR) :
    List (String × Int) :=
  inflightLoop nhc items []

/-- Written from the claim C3's words, only to state its counterexample:
match by name + kind + apiVersion + UID, or by name + kind when the UIDs
are not yet populated. -/
def claimOwnerRefMatches (nhc : NodeHealthCheck) (o : OwnerRef) : Bool :=
  if o.uid == "" || nhc.uid == "" then o.name == nhc.name && o.kind == nhc.kind
  else o.name == nhc.name && o.kind == nhc.kind && o.apiVersion == nhc.apiVersion &&
    o.uid == nhc.uid

/-- Length of a Go map value, none modelling a nil map. -/
def goLen {V : Type} : Option (List (String × V)) → Nat
  | none => 0
  | some l => l.length

/-- Content equality of two association lists with unique keys, as
reflect.DeepEqual compares two non-nil Go maps: order-insensitive mutual
containment. -/
def mapsContentEqb (m1 m2 : List (String × Int)) : Bool :=
  m1.all (fun kv => mapLookup m2 kv.1 == some kv.2) &&
    m2.all (fun kv => mapLookup m1 kv.1 == some kv.2)

/-- reflect.DeepEqual on two Go maps: nil equals only nil, two non-nil maps
compare by content. -/
def goDeepEqual : Option (List (String × Int)) → Option (List (String × Int)) → Bool
  | none, none => true
  | some l1, some l2 => mapsContentEqb l1 l2
  | _, _ => false

/-- The status fields patchStatus reads and writes. -/
structure NHCStatus where
  observedNodes : Int
  healthyNodes : Int
  inFlightRemediations : Option (List (String × Int))
deriving DecidableEq

/-- Translation of patchStatus: healthyNodes = observedNodes -
unhealthyNodes; skip the write when observedNodes and healthyNodes are
unchanged and the in-flight maps are both of length zero (nil or not) or
reflect.DeepEqual; otherwise patch the three fields.  The boolean reports
whether a write was issued. -/
def patchStatus (st : NHCStatus) (observedNodes unhealthyNodes : Int)
    (remediations : Option (List (String × Int))) : NHCStatus × Bool :=
  let healthyNodes := observedNodes - unhealthyNodes
  if st.observedNodes = observedNodes ∧ st.healthyNodes = healthyNodes ∧
      ((goLen st.inFlightRemediations = 0 ∧ goLen remediations = 0) ∨
        goDeepEqual st.inFlightRemediations remediations = true) then
    (st, false)
  else
    ({ observedNodes := observedNodes, healthyNodes := healthyNodes,
       inFlightRemediations := remediations }, true)

/-- Keys of a Go map value are unique; a nil map trivially so. -/
def goKeysNodup : Option (List (String × Int)) → Prop
  | none => True
  | some l => (l.map Prod.fst).Nodup

/-- Concrete policy fixture for the closed instantiations below. -/
def sampleNHC : NodeHealthCheck :=
  { apiVersion := "remediation.medik8s.io/v1alpha1", kind := "NodeHealthCheck",
    name := "nhc-1", uid := "uid-1" }

/-- Concrete template payload fixture. -/
def sampleTemplateSpec : TemplateSpec :=
  { payload := "infra-remediation-spec", annotations := [] }

/-- Concrete template object fixture. -/
def sampleTemplate : TemplateObj :=
  { group := "test.medik8s.io", version := "v1alpha1", kind := "InfraRemediationTemplate",
    ns := "default", templateSpec := some sampleTemplateSpec }

/-- Concrete request object fixture, as materialised for node-1. -/
def sampleCR : RemediationCR :=
  crOfTemplate "node-1" 0 sampleNHC sampleTemplate sampleTemplateSpec

/-- Owner reference agreeing with sampleNHC on name, kind and apiVersion
but carrying a different, populated UID. -/
def refOtherUid : OwnerRef :=
  { apiVersion := "remediation.medik8s.io/v1alpha1", kind := "NodeHealthCheck",
    name := "nhc-1", uid := "uid-2", controller := some false, blockOwnerDeletion := none }

/-- Request object owned through refOtherUid. -/
def crOtherUid : RemediationCR :=
  { sampleCR with ownerRefs := [refOtherUid], creationTimestamp := 7 }

/-- Policy unhealthyConditions fixture: Ready Unknown for 300ns. -/
def sampleTests : List UnhealthyCondition := [⟨"Ready", "Unknown", 300⟩]

/-- A node unhealthy under sampleTests at now = 301. -/
def sampleUnhealthyNode : Node := { name := "node-1", conditions := [⟨"Ready", "Unknown", 0⟩] }

/-- A node with no conditions, healthy under any tests. -/
def sampleHealthyNode : Node := { name := "node-1", conditions := [] }

theorem conditionTriggers_iff (now : Int) (ncs : List NodeCondition) (c : UnhealthyCondition) :
    conditionTriggers now ncs c = true ↔
      ∃ n, condByType ncs c.type = some n ∧ n.status = c.status ∧
        n.lastTransitionTime + c.duration < now := by
  cases h : condByType ncs c.type with
  | none => simp [conditionTriggers, h]
  | some n => simp [conditionTriggers, h]

/-- C1 (amended): the node-health evaluator classifies a node as unhealthy
if and only if, for some entry of the policy's unhealthyConditions, the
node has a condition of that entry's type whose status equals the entry's
expected status and whose transition is strictly older than the entry's
minimum duration (now - lastTransitionTime > minimumDuration); absence of
a condition of the entry's type never triggers that entry. -/
theorem c1_isHealthy_strict_iff (now : Int) (conditionTests : List UnhealthyCondition)
    (nodeConditions : List NodeCondition) :
    isHealthy now conditionTests nodeConditions = false ↔
      ∃ c ∈ conditionTests, ∃ n, condByType nodeConditions c.type = some n ∧
        n.status = c.status ∧ n.lastTransitionTime + c.duration < now := by
  simp only [isHealthy, Bool.not_eq_false', List.any_eq_true]
  constructor
  · rintro ⟨c, hc, ht⟩
    exact ⟨c, hc, (conditionTriggers_iff now nodeConditions c).mp ht⟩
  · rintro ⟨c, hc, hn⟩
    exact ⟨c, hc, (conditionTriggers_iff now nodeConditions c).mpr hn⟩

/-- C1 counterexample: one unhealthyConditions entry (Ready, Unknown, 300ns)
and a node condition (Ready, Unknown) whose transition is exactly 300ns old
at evaluation time.  The claim's criterion (now - lastTransitionTime >=
minimumDuration) classifies the node unhealthy, yet isHealthy returns
healthy, because the source tests now.After(lastTransitionTime.Add(duration)),
a strict comparison. -/
theorem c1_exact_boundary_counterexample :
    claimUnhealthyCriterion 300 [⟨"Ready", "Unknown", 300⟩] [⟨"Ready", "Unknown", 0⟩] = true ∧
      isHealthy 300 [⟨"Ready", "Unknown", 300⟩] [⟨"Ready", "Unknown", 0⟩] = true := by
  constructor
  · decide
  · decide

theorem getCR_eq_none_iff (store : List RemediationCR) (k : String) :
    getCR store k = none ↔ ∀ cr ∈ store, cr.name ≠ k := by
  induction store with
  | nil => simp [getCR]
  | cons c rest ih =>
    by_cases h : c.name = k
    · simp [getCR, h]
    · simp [getCR, h, ih]

theorem getCR_some_name {store : List RemediationCR} {k : String} {cr : RemediationCR}
    (h : getCR store k = some cr) : cr.name = k := by
  induction store with
  | nil => simp [getCR] at h
  | cons c rest ih =>
    by_cases hc : c.name = k
    · simp [getCR, hc] at h
      rw [← h]
      exact hc
    · simp [getCR, hc] at h
      exact ih h

theorem deleteCR_mem {store : List RemediationCR} {n : String} {cr : RemediationCR}
    (h : cr ∈ deleteCR store n) : cr ∈ store := by
  induction store with
  | nil => simp [deleteCR] at h
  | cons c rest ih =>
    by_cases hc : c.name = n
    · simp [deleteCR, hc] at h
      exact List.mem_cons_of_mem c (ih h)
    · simp [deleteCR, hc] at h
      rcases h with h | h
      · exact h ▸ List.mem_cons_self c rest
      · exact List.mem_cons_of_mem c (ih h)

theorem getCR_deleteCR_self (store : List RemediationCR) (n : String) :
    getCR (deleteCR store n) n = none := by
  rw [getCR_eq_none_iff]
  intro cr hcr
  induction store with
  | nil => simp [deleteCR] at hcr
  | cons c rest ih =>
    by_cases hc : c.name = n
    · simp [deleteCR, hc] at hcr
      exact ih hcr
    · simp [deleteCR, hc] at hcr
      rcases hcr with h | h
      · rw [h]; exact hc
      · exact ih h

theorem getCR_deleteCR_other (store : List RemediationCR) (n k : String) (hk : k ≠ n) :
    getCR (deleteCR store n) k = getCR store k := by
  induction store with
  | nil => rfl
  | cons c rest ih =>
    by_cases hc : c.name = n
    · simp [deleteCR, getCR, hc, ih, Ne.symm hk]
    · by_cases hck : c.name = k
      · simp [deleteCR, getCR, hc, hck, hk]
      · simp [deleteCR, getCR, hc, hck, ih]

theorem getCR_append_other (store : List RemediationCR) (cr : RemediationCR) (k : String)
    (hk : cr.name ≠ k) : getCR (store ++ [cr]) k = getCR store k := by
  induction store with
  | nil => simp [getCR, hk]
  | cons c rest ih =>
    by_cases hck : c.name = k
    · simp [getCR, hck]
    · simp [getCR, hck, ih]

theorem getCR_updateCR_other (store : List RemediationCR) (cr : RemediationCR) (k : String)
    (hk : cr.name ≠ k) : getCR (updateCR store cr) k = getCR store k := by
  induction store with
  | nil => rfl
  | cons c rest ih =>
    by_cases hc : c.name = cr.name
    · have hck : ¬ c.name = k := fun h => hk (h ▸ hc ▸ rfl)
      simp [updateCR, getCR, hc, hck, hk, ih]
    · by_cases hck : c.name = k
      · simp [updateCR, getCR, hc, hck, Ne.symm hk]
      · simp [updateCR, getCR, hc, hck, ih]

theorem updateCR_map_name (store : List RemediationCR) (cr : RemediationCR) :
    (updateCR store cr).map RemediationCR.name = store.map RemediationCR.name := by
  induction store with
  | nil => rfl
  | cons c rest ih =>
    by_cases hc : c.name = cr.name
    · simp [updateCR, hc, ih]
    · simp [updateCR, hc, ih]

theorem filter_name_len_le_one (store : List RemediationCR) (n : String)
    (hnd : (store.map RemediationCR.name).Nodup) :
    (store.filter (fun cr => cr.name == n)).length ≤ 1 := by
  induction store with
  | nil => simp
  | cons c rest ih =>
    rw [List.map_cons, List.nodup_cons] at hnd
    by_cases hc : c.name = n
    · have hrest : rest.filter (fun cr => cr.name == n) = [] := by
        rw [List.filter_eq_nil_iff]
        intro cr hcr
        simp only [beq_iff_eq]
        intro hcn
        apply hnd.1
        have hmem : cr.name ∈ rest.map RemediationCR.name :=
          List.mem_map_of_mem RemediationCR.name hcr
        rw [hcn, ← hc] at hmem
        exact hmem
      simp [List.filter_cons, hc, hrest]
    · simp only [List.filter_cons, beq_iff_eq, hc, if_false]
      exact ih hnd.2

theorem mapLookup_insertMap {V : Type} (m : List (String × V)) (k : String) (v : V)
    (k' : String) :
    mapLookup (insertMap m k v) k' = if k = k' then some v else mapLookup m k' := by
  induction m with
  | nil =>
    by_cases h : k = k' <;> simp [insertMap, mapLookup, h]
  | cons kv rest ih =>
    by_cases h1 : kv.1 = k
    · by_cases h2 : k = k'
      · simp [insertMap, mapLookup, h1, h2]
      · have : ¬ kv.1 = k' := fun h => h2 (h1 ▸ h)
        simp [insertMap, mapLookup, h1, h2, this]
    · by_cases h3 : kv.1 = k'
      · have h4 : ¬ k' = k := fun h => h1 (h3.trans h)
        have h5 : ¬ k = k' := fun h => h4 h.symm
        simp [insertMap, mapLookup, h1, h3, h4, h5]
      · simp [insertMap, mapLookup, h1, h3, ih]

theorem mapLookup_some_mem {V : Type} {m : List (String × V)} {k : String} {v : V}
    (h : mapLookup m k = some v) : (k, v) ∈ m := by
  induction m with
  | nil => simp [mapLookup] at h
  | cons kv rest ih =>
    by_cases hk : kv.1 = k
    · simp [mapLookup, hk] at h
      exact List.mem_cons.mpr (Or.inl (by rw [← hk, ← h]))
    · simp [mapLookup, hk] at h
      exact List.mem_cons_of_mem kv (ih h)

theorem mapLookup_self_of_nodup {V : Type} (m : List (String × V))
    (hnd : (m.map Prod.fst).Nodup) :
    ∀ kv ∈ m, mapLookup m kv.1 = some kv.2 := by
  induction m with
  | nil => simp
  | cons kv0 rest ih =>
    rw [List.map_cons, List.nodup_cons] at hnd
    intro kv hkv
    rcases List.mem_cons.mp hkv with h | h
    · simp [mapLookup, h]
    · have hne : ¬ kv0.1 = kv.1 := by
        intro he
        exact hnd.1 (he ▸ List.mem_map_of_mem Prod.fst h)
      simp [mapLookup, hne]
      exact ih hnd.2 kv h

theorem alertOldRemediationCR_name (now : Int) (cr : RemediationCR) :
    (alertOldRemediationCR now cr).1.name = cr.name := by
  unfold alertOldRemediationCR
  split
  · split <;> rfl
  · rfl

theorem markHealthyCore_preserves_absence (n k : String) (store : List RemediationCR)
    (h : getCR store k = none) : getCR (markHealthyCore n store).1 k = none := by
  unfold markHealthyCore
  cases hg : getCR store n with
  | none => exact h
  | some cr =>
    by_cases hd : cr.deletionTimestamp.isSome
    · simp [hd]; exact h
    · simp [hd]
      by_cases hk : k = n
      · rw [hk]; exact getCR_deleteCR_self store n
      · rw [getCR_deleteCR_other store n k hk]; exact h

theorem markHealthyCore_other (n k : String) (store : List RemediationCR) (hk : k ≠ n) :
    getCR (markHealthyCore n store).1 k = getCR store k := by
  unfold markHealthyCore
  cases hg : getCR store n with
  | none => rfl
  | some cr =>
    by_cases hd : cr.deletionTimestamp.isSome
    · simp [hd]
    · simp [hd]
      exact getCR_deleteCR_other store n k hk

theorem markHealthyCore_live_absent (n : String) (store : List RemediationCR)
    (hlive : ∀ cr, getCR store n = some cr → cr.deletionTimestamp = none) :
    getCR (markHealthyCore n store).1 n = none := by
  unfold markHealthyCore
  cases hg : getCR store n with
  | none => exact hg
  | some cr =>
    have hd : cr.deletionTimestamp = none := hlive cr hg
    simp [hd]
    exact getCR_deleteCR_self store n

theorem checkNodesHealth_eq_core (now : Int) (tests : List UnhealthyCondition)
    (ignore : String → Bool) (nhc : NodeHealthCheck) (t : TemplateObj) (ts : TemplateSpec)
    (hwf : t.templateSpec = some ts) :
    ∀ (nodes : List Node) (store : List RemediationCR),
      checkNodesHealth now tests ignore nhc t nodes store =
        some (checkNodesHealthCore now tests ignore nodes store) := by
  intro nodes
  induction nodes with
  | nil => intro store; rfl
  | cons nd rest ih =>
    intro store
    by_cases hh : isHealthy now tests nd.conditions = true
    · simp [checkNodesHealth, checkNodesHealthCore, hh, markHealthy,
        generateRemediationCR, hwf, ih]
    · by_cases hi : ignore nd.name = true
      · simp [checkNodesHealth, checkNodesHealthCore, hh, hi, ih]
      · simp [checkNodesHealth, checkNodesHealthCore, hh, hi, ih]

theorem remediateAll_eq_core (now : Int) (nhc : NodeHealthCheck) (t : TemplateObj)
    (ts : TemplateSpec) (hwf : t.templateSpec = some ts) :
    ∀ (nodes : List Node) (store : List RemediationCR),
      remediateAll now nhc t nodes store =
        some (remediateAllCore now nhc t ts nodes store) := by
  intro nodes
  induction nodes with
  | nil => intro store; rfl
  | cons nd rest ih =>
    intro store
    simp [remediateAll, remediateAllCore, remediate, generateRemediationCR, hwf, ih]

theorem reconcile_eq_core (now : Int) (tests : List UnhealthyCondition)
    (ignore : String → Bool) (minHealthySpec : IntOrPercent) (pauseRequests : List String)
    (upgradeCheck : Bool × Option String) (nhc : NodeHealthCheck) (t : TemplateObj)
    (ts : TemplateSpec) (hwf : t.templateSpec = some ts)
    (nodes : List Node) (store : List RemediationCR) :
    reconcile now tests ignore minHealthySpec pauseRequests upgradeCheck nhc t nodes store =
      some (reconcileCore now tests ignore minHealthySpec pauseRequests upgradeCheck
        nhc t ts nodes store) := by
  unfold reconcile reconcileCore
  rw [checkNodesHealth_eq_core now tests ignore nhc t ts hwf nodes store]
  simp only []
  split
  · rw [remediateAll_eq_core now nhc t ts hwf]
  · rfl

theorem remediateCore_other (cr : RemediationCR) (now : Int) (store : List RemediationCR)
    (k : String) (hk : cr.name ≠ k) :
    getCR (remediateCore cr now store).1 k = getCR store k := by
  unfold remediateCore
  cases hg : getCR store cr.name with
  | none => exact getCR_append_other store cr k hk
  | some existing =>
    simp only []
    apply getCR_updateCR_other
    rw [alertOldRemediationCR_name, getCR_some_name hg]
    exact hk

theorem remediateAllCore_other (now : Int) (nhc : NodeHealthCheck) (t : TemplateObj)
    (ts : TemplateSpec) :
    ∀ (nodes : List Node) (store : List RemediationCR) (k : String),
      (∀ nd ∈ nodes, nd.name ≠ k) →
      getCR (remediateAllCore now nhc t ts nodes store).1 k = getCR store k := by
  intro nodes
  induction nodes with
  | nil => intro store k _; rfl
  | cons nd rest ih =>
    intro store k hk
    unfold remediateAllCore
    simp only []
    rw [ih _ k (fun u hu => hk u (List.mem_cons_of_mem nd hu))]
    exact remediateCore_other _ now store k (hk nd (List.mem_cons_self nd rest))

theorem checkNodesHealthCore_preserves_absence (now : Int) (tests : List UnhealthyCondition)
    (ignore : String → Bool) :
    ∀ (nodes : List Node) (store : List RemediationCR) (k : String),
      getCR store k = none →
      getCR (checkNodesHealthCore now tests ignore nodes store).1 k = none := by
  intro nodes
  induction nodes with
  | nil => intro store k h; exact h
  | cons nd rest ih =>
    intro store k h
    by_cases hh : isHealthy now tests nd.conditions = true
    · simp only [checkNodesHealthCore, hh, if_true]
      exact ih _ k (markHealthyCore_preserves_absence nd.name k store h)
    · by_cases hi : ignore nd.name = true
      · simp only [checkNodesHealthCore, hh, hi, if_false, if_true]
        exact ih store k h
      · simp only [checkNodesHealthCore, hh, hi, if_false]
        exact ih store k h

theorem checkNodesHealthCore_unhealthy_mem (now : Int) (tests : List UnhealthyCondition)
    (ignore : String → Bool) :
    ∀ (nodes : List Node) (store : List RemediationCR) (nd : Node),
      nd ∈ (checkNodesHealthCore now tests ignore nodes store).2.1 →
      nd ∈ nodes ∧ isHealthy now tests nd.conditions = false := by
  intro nodes
  induction nodes with
  | nil => intro store nd h; simp [checkNodesHealthCore] at h
  | cons n0 rest ih =>
    intro store nd h
    by_cases hh : isHealthy now tests n0.conditions = true
    · simp only [checkNodesHealthCore, hh, if_true] at h
      obtain ⟨hm, hu⟩ := ih _ nd h
      exact ⟨List.mem_cons_of_mem n0 hm, hu⟩
    · by_cases hi : ignore n0.name = true
      · simp only [checkNodesHealthCore, hh, hi, if_false, if_true] at h
        obtain ⟨hm, hu⟩ := ih store nd h
        exact ⟨List.mem_cons_of_mem n0 hm, hu⟩
      · simp only [checkNodesHealthCore, hh, hi, if_false] at h
        rcases List.mem_cons.mp h with he | hm
        · refine ⟨he ▸ List.mem_cons_self n0 rest, ?_⟩
          rw [he]
          exact Bool.eq_false_iff.mpr hh
        · obtain ⟨hm2, hu⟩ := ih store nd hm
          exact ⟨List.mem_cons_of_mem n0 hm2, hu⟩

theorem checkNodesHealthCore_healthy_absent (now : Int) (tests : List UnhealthyCondition)
    (ignore : String → Bool) :
    ∀ (nodes : List Node) (store : List RemediationCR) (nd : Node),
      (nodes.map Node.name).Nodup → nd ∈ nodes →
      isHealthy now tests nd.conditions = true →
      (∀ cr, getCR store nd.name = some cr → cr.deletionTimestamp = none) →
      getCR (checkNodesHealthCore now tests ignore nodes store).1 nd.name = none := by
  intro nodes
  induction nodes with
  | nil => intro store nd _ hm; simp at hm
  | cons n0 rest ih =>
    intro store nd hnd hm hh hlive
    rw [List.map_cons, List.nodup_cons] at hnd
    rcases List.mem_cons.mp hm with he | hmr
    · subst he
      simp only [checkNodesHealthCore, hh, if_true]
      exact checkNodesHealthCore_preserves_absence now tests ignore rest _ nd.name
        (markHealthyCore_live_absent nd.name store hlive)
    · have hne : n0.name ≠ nd.name := by
        intro he
        exact hnd.1 (he ▸ List.mem_map_of_mem Node.name hmr)
      by_cases hh0 : isHealthy now tests n0.conditions = true
      · simp only [checkNodesHealthCore, hh0, if_true]
        apply ih _ nd hnd.2 hmr hh
        intro cr hcr
        apply hlive cr
        rw [← markHealthyCore_other n0.name nd.name store (Ne.symm hne)]
        exact hcr
      · by_cases hi : ignore n0.name = true
        · simp only [checkNodesHealthCore, hh0, hi, if_false, if_true]
          exact ih store nd hnd.2 hmr hh hlive
        · simp only [checkNodesHealthCore, hh0, hi, if_false]
          exact ih store nd hnd.2 hmr hh hlive

theorem inflightLoop_mem (nhc : NodeHealthCheck) :
    ∀ (items : List RemediationCR) (m : List (String × Int)) (k : String),
      (mapLookup (inflightLoop nhc items m) k).isSome = true ↔
        ((mapLookup m k).isSome = true ∨
          ∃ cr ∈ items, cr.name = k ∧ cr.ownerRefs.any (ownerRefMatches nhc) = true) := by
  intro items
  induction items with
  | nil => intro m k; simp [inflightLoop]
  | cons cr rest ih =>
    intro m k
    by_cases hm : cr.ownerRefs.any (ownerRefMatches nhc) = true
    · rw [show inflightLoop nhc (cr :: rest) m =
          inflightLoop nhc rest (insertMap m cr.name cr.creationTimestamp) by
        simp [inflightLoop, hm]]
      rw [ih]
      by_cases hk : cr.name = k
      · constructor
        · intro _
          exact Or.inr ⟨cr, List.mem_cons_self cr rest, hk, hm⟩
        · intro _
          left
          rw [mapLookup_insertMap, if_pos hk]
          rfl
      · rw [mapLookup_insertMap, if_neg hk]
        constructor
        · rintro (h | ⟨cr2, h2, h3⟩)
          · exact Or.inl h
          · exact Or.inr ⟨cr2, List.mem_cons_of_mem cr h2, h3⟩
        · rintro (h | ⟨cr2, h2, h3, h4⟩)
          · exact Or.inl h
          · rcases List.mem_cons.mp h2 with he | h2r
            · subst he
              exact absurd h3 hk
            · exact Or.inr ⟨cr2, h2r, h3, h4⟩
    · rw [show inflightLoop nhc (cr :: rest) m = inflightLoop nhc rest m by
        simp [inflightLoop, hm]]
      rw [ih]
      constructor
      · rintro (h | ⟨cr2, h2, h3⟩)
        · exact Or.inl h
        · exact Or.inr ⟨cr2, List.mem_cons_of_mem cr h2, h3⟩
      · rintro (h | ⟨cr2, h2, h3, h4⟩)
        · exact Or.inl h
        · rcases List.mem_cons.mp h2 with he | h2r
          · subst he
            exact absurd h4 hm
          · exact Or.inr ⟨cr2, h2r, h3, h4⟩

theorem inflightLoop_value (nhc : NodeHealthCheck) :
    ∀ (items : List RemediationCR) (m : List (String × Int)) (k : String) (v : Int),
      mapLookup (inflightLoop nhc items m) k = some v →
        mapLookup m k = some v ∨
          ∃ cr ∈ items, cr.name = k ∧ cr.ownerRefs.any (ownerRefMatches nhc) = true ∧
            cr.creationTimestamp = v := by
  intro items
  induction items with
  | nil => intro m k v h; exact Or.inl h
  | cons cr rest ih =>
    intro m k v h
    by_cases hm : cr.ownerRefs.any (ownerRefMatches nhc) = true
    · rw [show inflightLoop nhc (cr :: rest) m =
          inflightLoop nhc rest (insertMap m cr.name cr.creationTimestamp) by
        simp [inflightLoop, hm]] at h
      rcases ih _ k v h with hbase | ⟨cr2, hcr2, hrest⟩
      · rw [mapLookup_insertMap] at hbase
        by_cases hk : cr.name = k
        · rw [if_pos hk] at hbase
          exact Or.inr ⟨cr, List.mem_cons_self cr rest, hk, hm, Option.some.inj hbase⟩
        · rw [if_neg hk] at hbase
          exact Or.inl hbase
      · exact Or.inr ⟨cr2, List.mem_cons_of_mem cr hcr2, hrest⟩
    · rw [show inflightLoop nhc (cr :: rest) m = inflightLoop nhc rest m by
        simp [inflightLoop, hm]] at h
      rcases ih m k v h with hbase | ⟨cr2, hcr2, hrest⟩
      · exact Or.inl hbase
      · exact Or.inr ⟨cr2, List.mem_cons_of_mem cr hcr2, hrest⟩

theorem mapsContentEqb_refl (m : List (String × Int)) (hnd : (m.map Prod.fst).Nodup) :
    mapsContentEqb m m = true := by
  unfold mapsContentEqb
  rw [Bool.and_eq_true]
  constructor <;>
  · rw [List.all_eq_true]
    intro kv hkv
    simp [mapLookup_self_of_nodup m hnd kv hkv]

theorem goDeepEqual_lookup_iff (l1 l2 : List (String × Int))
    (h1 : (l1.map Prod.fst).Nodup) (h2 : (l2.map Prod.fst).Nodup) :
    goDeepEqual (some l1) (some l2) = true ↔ ∀ k, mapLookup l1 k = mapLookup l2 k := by
  show mapsContentEqb l1 l2 = true ↔ _
  unfold mapsContentEqb
  rw [Bool.and_eq_true, List.all_eq_true, List.all_eq_true]
  constructor
  · rintro ⟨ha, hb⟩ k
    cases hl : mapLookup l1 k with
    | some v =>
      have hkv := mapLookup_some_mem hl
      have := ha (k, v) hkv
      simp at this
      exact this.symm
    | none =>
      cases hr : mapLookup l2 k with
      | none => rfl
      | some v =>
        have hkv := mapLookup_some_mem hr
        have := hb (k, v) hkv
        simp at this
        rw [hl] at this
        exact Option.noConfusion this
  · intro hpt
    constructor
    · intro kv hkv
      simp only [beq_iff_eq]
      rw [← hpt kv.1]
      exact mapLookup_self_of_nodup l1 h1 kv hkv
    · intro kv hkv
      simp only [beq_iff_eq]
      rw [hpt kv.1]
      exact mapLookup_self_of_nodup l2 h2 kv hkv

/-- C6: when a node is classified healthy, the request object named for it
is deleted within that reconcile and a RemediationRemoved event is
emitted; when the object is absent or already carries a deletionTimestamp
the operation succeeds with no delete and no event; and the whole
operation is idempotent across retries. -/
theorem c6_markHealthy_delete_idempotent (n : String) (now : Int) (nhc : NodeHealthCheck)
    (t : TemplateObj) (ts : TemplateSpec) (store : List RemediationCR)
    (hwf : t.templateSpec = some ts) :
    markHealthy n now nhc t store = some (markHealthyCore n store) ∧
    (getCR store n = none → markHealthyCore n store = (store, [])) ∧
    (∀ cr, getCR store n = some cr → cr.deletionTimestamp ≠ none →
      markHealthyCore n store = (store, [])) ∧
    (∀ cr, getCR store n = some cr → cr.deletionTimestamp = none →
      markHealthyCore n store =
        (deleteCR store n, [(eventTypeNormal, eventReasonRemediationRemoved)]) ∧
      getCR (deleteCR store n) n = none) ∧
    markHealthyCore n (markHealthyCore n store).1 = ((markHealthyCore n store).1, []) := by
  refine ⟨by simp [markHealthy, generateRemediationCR, hwf], ?_, ?_, ?_, ?_⟩
  · intro h
    simp [markHealthyCore, h]
  · intro cr hg hd
    have hds : cr.deletionTimestamp.isSome := Option.ne_none_iff_isSome.mp hd
    simp [markHealthyCore, hg, hds]
  · intro cr hg hd
    exact ⟨by simp [markHealthyCore, hg, hd], getCR_deleteCR_self store n⟩
  · cases hg : getCR store n with
    | none => simp [markHealthyCore, hg]
    | some cr =>
      by_cases hd : cr.deletionTimestamp.isSome
      · simp [markHealthyCore, hg, hd]
      · simp only [markHealthyCore, hg, hd, if_false]
        simp [getCR_deleteCR_self store n]

/-- Witness for C6: the live node-1 object fixture is deleted with the
RemediationRemoved event and is gone afterwards. -/
theorem c6_witness :
    markHealthyCore "node-1" [sampleCR] =
      (deleteCR [sampleCR] "node-1", [(eventTypeNormal, eventReasonRemediationRemoved)]) ∧
    getCR (deleteCR [sampleCR] "node-1") "node-1" = none :=
  (c6_markHealthy_delete_idempotent "node-1" 0 sampleNHC sampleTemplate sampleTemplateSpec
    [sampleCR] rfl).2.2.2.1 sampleCR rfl rfl

/-- C2: remediate gets the request object by its deterministic key, creates
it and emits RemediationCreated exactly when the get reports not-found; when
the object exists no create happens and no RemediationCreated event is
emitted; in both cases at most one object of the node's name remains. -/
theorem c2_remediate_at_most_one (n : String) (now : Int) (nhc : NodeHealthCheck)
    (t : TemplateObj) (ts : TemplateSpec) (store : List RemediationCR)
    (hwf : t.templateSpec = some ts)
    (huniq : (store.map RemediationCR.name).Nodup) :
    ∃ out, remediate n now nhc t store = some out ∧
      (out.1.map RemediationCR.name).Nodup ∧
      (out.1.filter (fun cr => cr.name == n)).length ≤ 1 ∧
      (getCR store n = none →
        out.1 = store ++ [crOfTemplate n now nhc t ts] ∧
        out.2.1 = [(eventTypeNormal, eventReasonRemediationCreated)]) ∧
      (getCR store n ≠ none →
        out.1.map RemediationCR.name = store.map RemediationCR.name ∧
        (eventTypeNormal, eventReasonRemediationCreated) ∉ out.2.1) := by
  have hname : (crOfTemplate n now nhc t ts).name = n := rfl
  refine ⟨remediateCore (crOfTemplate n now nhc t ts) now store,
    by simp [remediate, generateRemediationCR, hwf], ?_⟩
  cases hget : getCR store n with
  | none =>
    have hget' : getCR store (crOfTemplate n now nhc t ts).name = none := hget
    have hout : remediateCore (crOfTemplate n now nhc t ts) now store =
        (store ++ [crOfTemplate n now nhc t ts],
          [(eventTypeNormal, eventReasonRemediationCreated)], none) := by
      simp [remediateCore, hget']
    rw [hout]
    have hnotin := (getCR_eq_none_iff store n).mp hget
    have hnd : ((store ++ [crOfTemplate n now nhc t ts]).map RemediationCR.name).Nodup := by
      rw [List.map_append, List.nodup_append]
      refine ⟨huniq, by simp, ?_⟩
      intro a ha hb
      simp only [List.map_cons, List.map_nil, List.mem_singleton, hname] at hb
      rcases List.mem_map.mp ha with ⟨cr, hcr, hcra⟩
      exact hnotin cr hcr (hcra.trans hb)
    exact ⟨hnd, filter_name_len_le_one _ n hnd, fun _ => ⟨rfl, rfl⟩,
      fun hcontra => absurd rfl hcontra⟩
  | some ex =>
    have hget' : getCR store (crOfTemplate n now nhc t ts).name = some ex := hget
    have hout : remediateCore (crOfTemplate n now nhc t ts) now store =
        (updateCR store (alertOldRemediationCR now ex).1,
          (if (alertOldRemediationCR now ex).2.1 then [metricObserveOldRemediationCR] else []),
          (alertOldRemediationCR now ex).2.2) := by
      simp [remediateCore, hget']
    rw [hout]
    have hmap := updateCR_map_name store (alertOldRemediationCR now ex).1
    have hnd : ((updateCR store (alertOldRemediationCR now ex).1).map
        RemediationCR.name).Nodup := by
      rw [hmap]
      exact huniq
    refine ⟨hnd, filter_name_len_le_one _ n hnd, fun h => Option.noConfusion h,
      fun _ => ⟨hmap, ?_⟩⟩
    by_cases ha : (alertOldRemediationCR now ex).2.1 = true
    · simp [ha, metricObserveOldRemediationCR, eventTypeNormal, eventReasonRemediationCreated]
    · simp [ha]

/-- Witness for C2: remediating node-1 against an empty store. -/
theorem c2_witness :
    ∃ out, remediate "node-1" 0 sampleNHC sampleTemplate [] = some out ∧
      (out.1.map RemediationCR.name).Nodup ∧
      (out.1.filter (fun cr => cr.name == "node-1")).length ≤ 1 ∧
      (getCR [] "node-1" = none →
        out.1 = [] ++ [crOfTemplate "node-1" 0 sampleNHC sampleTemplate sampleTemplateSpec] ∧
        out.2.1 = [(eventTypeNormal, eventReasonRemediationCreated)]) ∧
      (getCR [] "node-1" ≠ none →
        out.1.map RemediationCR.name = ([] : List RemediationCR).map RemediationCR.name ∧
        (eventTypeNormal, eventReasonRemediationCreated) ∉ out.2.1) :=
  c2_remediate_at_most_one "node-1" 0 sampleNHC sampleTemplate sampleTemplateSpec []
    rfl List.nodup_nil

/-- C7 (code bug shown): a probe answering upgrading skips remediation with
a one-minute requeue and a RemediationSkipped event; but when the probe
reports upgrading together with an error, the code still skips, because
isClusterUpgrading follows the returned boolean and ignores the error,
while the claim, like the code's own comment, promises to proceed as if
the cluster were not upgrading; with (false, error) it does proceed. -/
theorem c7_upgrade_error_still_skips :
    isClusterUpgrading (true, some "connection refused") = true ∧
    shouldTryRemediation 3 1 1 [] (true, some "connection refused") =
      ⟨false, some timeMinute, [(eventTypeNormal, eventReasonRemediationSkipped)]⟩ ∧
    shouldTryRemediation 3 1 1 [] (false, some "connection refused") = ⟨true, none, []⟩ := by
  refine ⟨rfl, ?_, ?_⟩ <;> rfl

/-- C8: the materialised object carries the template's kind with the
trailing Template suffix removed, group and version copied, the node's
name, the template's namespace, the policy as sole non-controller owner
with block-owner-deletion unset, and the fixed part-of label; removing the
suffix from any kind that ends in Template leaves exactly the base. -/
theorem c8_generateRemediationCR_fields (n : String) (now : Int) (nhc : NodeHealthCheck)
    (t : TemplateObj) (ts : TemplateSpec) (hwf : t.templateSpec = some ts) :
    ∃ cr, generateRemediationCR n now nhc t = some cr ∧
      cr.kind = trimSuffix t.kind templateSuffix ∧
      cr.group = t.group ∧ cr.version = t.version ∧
      cr.name = n ∧ cr.ns = t.ns ∧
      cr.ownerRefs = [{ apiVersion := nhc.apiVersion, kind := nhc.kind, name := nhc.name,
                        uid := nhc.uid, controller := some false,
                        blockOwnerDeletion := none }] ∧
      cr.labels = [("app.kubernetes.io/part-of", "node-healthcheck-controller")] ∧
      ∀ base suf : String, trimSuffix (base ++ suf) suf = base := by
  refine ⟨crOfTemplate n now nhc t ts, by simp [generateRemediationCR, hwf],
    rfl, rfl, rfl, rfl, rfl, rfl, rfl, ?_⟩
  intro base suf
  unfold trimSuffix
  have hsuf : suf.data.isSuffixOf (base ++ suf).data = true := by
    rw [String.data_append, List.isSuffixOf_iff_suffix]
    exact List.suffix_append base.data suf.data
  rw [if_pos hsuf, String.data_append, List.length_append, Nat.add_sub_cancel,
    List.take_left]

/-- Witness for C8 at the concrete template fixture. -/
theorem c8_witness :
    ∃ cr, generateRemediationCR "node-1" 0 sampleNHC sampleTemplate = some cr ∧
      cr.kind = trimSuffix sampleTemplate.kind templateSuffix ∧
      cr.group = sampleTemplate.group ∧ cr.version = sampleTemplate.version ∧
      cr.name = "node-1" ∧ cr.ns = sampleTemplate.ns ∧
      cr.ownerRefs = [{ apiVersion := sampleNHC.apiVersion, kind := sampleNHC.kind,
                        name := sampleNHC.name, uid := sampleNHC.uid,
                        controller := some false, blockOwnerDeletion := none }] ∧
      cr.labels = [("app.kubernetes.io/part-of", "node-healthcheck-controller")] ∧
      ∀ base suf : String, trimSuffix (base ++ suf) suf = base :=
  c8_generateRemediationCR_fields "node-1" 0 sampleNHC sampleTemplate sampleTemplateSpec rfl

/-- C9: past the 48h threshold the flag annotation is written exactly once,
with the alert, and hence the metric sample in remediate, fired only on
that first detection, a present flag never being re-written; below the
threshold the requeue delay lands the next reconcile at creationTimestamp
+ threshold + one minute. -/
theorem c9_alertOldRemediationCR_once (now : Int) (cr : RemediationCR) :
    (cr.creationTimestamp + remediationCRAlertTimeout < now →
      (mapLookup cr.annotations oldRemediationCRAnnotationKey = none →
        alertOldRemediationCR now cr =
          ({ cr with annotations :=
              insertMap cr.annotations oldRemediationCRAnnotationKey "flagon" },
            true, none) ∧
        mapLookup (insertMap cr.annotations oldRemediationCRAnnotationKey "flagon")
          oldRemediationCRAnnotationKey = some "flagon") ∧
      (∀ v, mapLookup cr.annotations oldRemediationCRAnnotationKey = some v →
        alertOldRemediationCR now cr = (cr, false, none))) ∧
    (¬ cr.creationTimestamp + remediationCRAlertTimeout < now →
      alertOldRemediationCR now cr =
        (cr, false,
          some (remediationCRAlertTimeout - (now - cr.creationTimestamp) + timeMinute)) ∧
      now + (remediationCRAlertTimeout - (now - cr.creationTimestamp) + timeMinute) =
        cr.creationTimestamp + remediationCRAlertTimeout + timeMinute) := by
  constructor
  · intro hold
    constructor
    · intro habs
      exact ⟨by simp [alertOldRemediationCR, hold, habs],
        by rw [mapLookup_insertMap, if_pos rfl]⟩
    · intro v hsome
      have hs : (mapLookup cr.annotations oldRemediationCRAnnotationKey).isSome := by
        rw [hsome]
        rfl
      simp [alertOldRemediationCR, hold, hs]
  · intro hnot
    exact ⟨by simp [alertOldRemediationCR, hnot], by ring⟩

/-- C3 counterexample: a request object whose only owner reference agrees
with the policy on name, kind and apiVersion but carries a different,
populated UID.  Under the claim's matching rule (UID must match when the
UIDs are populated) the object is not retained, yet
getInflightRemediations retains it, because the source never consults the
UID. -/
theorem c3_uid_counterexample :
    claimOwnerRefMatches sampleNHC refOtherUid = false ∧
    ownerRefMatches sampleNHC refOtherUid = true ∧
    getInflightRemediations sampleNHC [crOtherUid] = [("node-1", 7)] := by
  refine ⟨by decide, by decide, by decide⟩

/-- C3 (amended): the census retains exactly the listed objects having some
owner reference matching the policy by name + kind + apiVersion, the UID
never being consulted, and every retained name maps to the creation
timestamp of such an object. -/
theorem c3_getInflightRemediations_census (nhc : NodeHealthCheck)
    (items : List RemediationCR) (k : String) :
    ((mapLookup (getInflightRemediations nhc items) k).isSome = true ↔
      ∃ cr ∈ items, cr.name = k ∧ cr.ownerRefs.any (ownerRefMatches nhc) = true) ∧
    (∀ v, mapLookup (getInflightRemediations nhc items) k = some v →
      ∃ cr ∈ items, cr.name = k ∧ cr.ownerRefs.any (ownerRefMatches nhc) = true ∧
        cr.creationTimestamp = v) := by
  constructor
  · rw [getInflightRemediations, inflightLoop_mem]
    simp [mapLookup]
  · intro v hv
    rcases inflightLoop_value nhc items [] k v hv with h | h
    · exact absurd h (by simp [mapLookup])
    · exact h

/-- C5: patchStatus is a no-op exactly when observedNodes, healthyNodes and
the in-flight map are unchanged, where an empty and a nil map count as
equal and non-nil maps compare by content; a second patchStatus over the
same inputs is a no-op leaving the status identical; and map deep-equality
is order-insensitive, being exactly lookup equality. -/
theorem c5_patchStatus_noop_idempotent :
    (∀ (st : NHCStatus) (obs unh : Int) (rem : Option (List (String × Int))),
      ((patchStatus st obs unh rem).2 = false ↔
        (st.observedNodes = obs ∧ st.healthyNodes = obs - unh ∧
          ((goLen st.inFlightRemediations = 0 ∧ goLen rem = 0) ∨
            goDeepEqual st.inFlightRemediations rem = true)))) ∧
    (∀ (st : NHCStatus) (obs unh : Int) (rem : Option (List (String × Int))),
      goKeysNodup rem →
      patchStatus (patchStatus st obs unh rem).1 obs unh rem =
        ((patchStatus st obs unh rem).1, false)) ∧
    (∀ l1 l2 : List (String × Int),
      (l1.map Prod.fst).Nodup → (l2.map Prod.fst).Nodup →
      (goDeepEqual (some l1) (some l2) = true ↔
        ∀ k, mapLookup l1 k = mapLookup l2 k)) := by
  refine ⟨?_, ?_, goDeepEqual_lookup_iff⟩
  · intro st obs unh rem
    simp only [patchStatus]
    split
    · rename_i h
      exact iff_of_true rfl h
    · rename_i h
      exact iff_of_false (by simp) h
  · intro st obs unh rem hnd
    by_cases hc : st.observedNodes = obs ∧ st.healthyNodes = obs - unh ∧
        ((goLen st.inFlightRemediations = 0 ∧ goLen rem = 0) ∨
          goDeepEqual st.inFlightRemediations rem = true)
    · have h1 : patchStatus st obs unh rem = (st, false) := by
        simp only [patchStatus]
        rw [if_pos hc]
      rw [h1]
      simp only [patchStatus]
      rw [if_pos hc]
    · have h1 : patchStatus st obs unh rem = (⟨obs, obs - unh, rem⟩, true) := by
        simp only [patchStatus]
        rw [if_neg hc]
      rw [h1]
      show patchStatus ⟨obs, obs - unh, rem⟩ obs unh rem = (⟨obs, obs - unh, rem⟩, false)
      cases rem with
      | none => simp [patchStatus, goLen, goDeepEqual]
      | some l => simp [patchStatus, goDeepEqual, mapsContentEqb_refl l hnd]

/-- C4: with at least one surviving unhealthy node and fewer healthy nodes
than the minHealthy threshold (an absolute integer, or a percentage of the
selected count rounded up), the reconcile creates no request object,
leaving the store exactly as the health pass left it, and emits a
RemediationSkipped warning; the percentage threshold is the ceiling of
p * total / 100. -/
theorem c4_minHealthy_gate (now : Int) (tests : List UnhealthyCondition)
    (ignore : String → Bool) (minHealthySpec : IntOrPercent) (pauseRequests : List String)
    (upgradeCheck : Bool × Option String) (nhc : NodeHealthCheck) (t : TemplateObj)
    (ts : TemplateSpec) (nodes : List Node) (store : List RemediationCR)
    (hwf : t.templateSpec = some ts)
    (hu : 1 ≤ (checkNodesHealthCore now tests ignore nodes store).2.1.length)
    (hlt : nodes.length - (checkNodesHealthCore now tests ignore nodes store).2.1.length <
      getScaledValueFromIntOrPercent minHealthySpec nodes.length) :
    ∃ out, reconcile now tests ignore minHealthySpec pauseRequests upgradeCheck
        nhc t nodes store = some out ∧
      out.store = (checkNodesHealthCore now tests ignore nodes store).1 ∧
      out.events = (checkNodesHealthCore now tests ignore nodes store).2.2 ++
        [(eventTypeWarning, eventReasonRemediationSkipped)] ∧
      (∀ k, getCR store k = none → getCR out.store k = none) ∧
      (∀ p total : Nat,
        p * total ≤ 100 * getScaledValueFromIntOrPercent (.percent p) total ∧
        100 * getScaledValueFromIntOrPercent (.percent p) total < p * total + 100) := by
  have hgate : shouldTryRemediation nodes.length
      (checkNodesHealthCore now tests ignore nodes store).2.1.length
      (getScaledValueFromIntOrPercent minHealthySpec nodes.length)
      pauseRequests upgradeCheck =
      ⟨false, none, [(eventTypeWarning, eventReasonRemediationSkipped)]⟩ := by
    simp only [shouldTryRemediation]
    rw [if_neg (by omega), if_neg (by omega)]
  have hcore : reconcileCore now tests ignore minHealthySpec pauseRequests upgradeCheck
      nhc t ts nodes store =
      ⟨(checkNodesHealthCore now tests ignore nodes store).1,
        (checkNodesHealthCore now tests ignore nodes store).2.2 ++
          [(eventTypeWarning, eventReasonRemediationSkipped)]⟩ := by
    simp [reconcileCore, hgate]
  refine ⟨reconcileCore now tests ignore minHealthySpec pauseRequests upgradeCheck
      nhc t ts nodes store,
    reconcile_eq_core now tests ignore minHealthySpec pauseRequests upgradeCheck nhc t ts hwf
      nodes store, by rw [hcore], by rw [hcore], ?_, ?_⟩
  · intro k hk
    rw [hcore]
    exact checkNodesHealthCore_preserves_absence now tests ignore nodes store k hk
  · intro p total
    simp only [getScaledValueFromIntOrPercent]
    omega

/-- Witness for C4: one selected node, unhealthy for longer than its
minimum duration, with minHealthy 1: zero healthy nodes stay below the
threshold, so remediation is skipped with the warning event. -/
theorem c4_witness :
    ∃ out, reconcile 301 sampleTests (fun _ => false) (.intVal 1) [] (false, none)
        sampleNHC sampleTemplate [sampleUnhealthyNode] [] = some out ∧
      out.store = (checkNodesHealthCore 301 sampleTests (fun _ => false)
        [sampleUnhealthyNode] []).1 ∧
      out.events = (checkNodesHealthCore 301 sampleTests (fun _ => false)
        [sampleUnhealthyNode] []).2.2 ++
        [(eventTypeWarning, eventReasonRemediationSkipped)] ∧
      (∀ k, getCR [] k = none → getCR out.store k = none) ∧
      (∀ p total : Nat,
        p * total ≤ 100 * getScaledValueFromIntOrPercent (.percent p) total ∧
        100 * getScaledValueFromIntOrPercent (.percent p) total < p * total + 100) :=
  c4_minHealthy_gate 301 sampleTests (fun _ => false) (.intVal 1) [] (false, none)
    sampleNHC sampleTemplate sampleTemplateSpec [sampleUnhealthyNode] [] rfl
    (by decide) (by decide)

/-- C10: a node classified healthy in a reconcile has its live request
object deleted in that same reconcile, whatever the safety gates decide,
because the deletion happens in the health-classification pass and
remediation only creates objects named after unhealthy nodes, whose names
differ. -/
theorem c10_healthy_node_object_deleted (now : Int) (tests : List UnhealthyCondition)
    (ignore : String → Bool) (minHealthySpec : IntOrPercent) (pauseRequests : List String)
    (upgradeCheck : Bool × Option String) (nhc : NodeHealthCheck) (t : TemplateObj)
    (ts : TemplateSpec) (nodes : List Node) (store : List RemediationCR) (nd : Node)
    (hwf : t.templateSpec = some ts)
    (hnames : (nodes.map Node.name).Nodup)
    (hmem : nd ∈ nodes)
    (hh : isHealthy now tests nd.conditions = true)
    (hlive : ∀ cr, getCR store nd.name = some cr → cr.deletionTimestamp = none) :
    ∃ out, reconcile now tests ignore minHealthySpec pauseRequests upgradeCheck
        nhc t nodes store = some out ∧ getCR out.store nd.name = none := by
  refine ⟨reconcileCore now tests ignore minHealthySpec pauseRequests upgradeCheck
      nhc t ts nodes store,
    reconcile_eq_core now tests ignore minHealthySpec pauseRequests upgradeCheck nhc t ts hwf
      nodes store, ?_⟩
  have habs : getCR (checkNodesHealthCore now tests ignore nodes store).1 nd.name = none :=
    checkNodesHealthCore_healthy_absent now tests ignore nodes store nd hnames hmem hh hlive
  have hothers : ∀ u ∈ (checkNodesHealthCore now tests ignore nodes store).2.1,
      u.name ≠ nd.name := by
    intro u hu heq
    obtain ⟨humem, hunh⟩ :=
      checkNodesHealthCore_unhealthy_mem now tests ignore nodes store u hu
    have hud : u = nd := List.inj_on_of_nodup_map hnames humem hmem heq
    rw [hud, hh] at hunh
    exact Bool.noConfusion hunh
  by_cases hg : (shouldTryRemediation nodes.length
      (checkNodesHealthCore now tests ignore nodes store).2.1.length
      (getScaledValueFromIntOrPercent minHealthySpec nodes.length)
      pauseRequests upgradeCheck).tryRemediation = true
  · have hs : (reconcileCore now tests ignore minHealthySpec pauseRequests upgradeCheck
        nhc t ts nodes store).store =
        (remediateAllCore now nhc t ts
          (checkNodesHealthCore now tests ignore nodes store).2.1
          (checkNodesHealthCore now tests ignore nodes store).1).1 := by
      simp [reconcileCore, hg]
    rw [hs, remediateAllCore_other now nhc t ts _ _ nd.name hothers]
    exact habs
  · have hg2 : (shouldTryRemediation nodes.length
        (checkNodesHealthCore now tests ignore nodes store).2.1.length
        (getScaledValueFromIntOrPercent minHealthySpec nodes.length)
        pauseRequests upgradeCheck).tryRemediation = false := by
      revert hg
      cases (shouldTryRemediation nodes.length
        (checkNodesHealthCore now tests ignore nodes store).2.1.length
        (getScaledValueFromIntOrPercent minHealthySpec nodes.length)
        pauseRequests upgradeCheck).tryRemediation <;> simp
    have hs : (reconcileCore now tests ignore minHealthySpec pauseRequests upgradeCheck
        nhc t ts nodes store).store =
        (checkNodesHealthCore now tests ignore nodes store).1 := by
      simp [reconcileCore, hg2]
    rw [hs]
    exact habs

/-- Witness for C10: the healthy node-1 with its leftover request object;
the object is gone after the reconcile. -/
theorem c10_witness :
    ∃ out, reconcile 301 sampleTests (fun _ => false) (.intVal 0) [] (false, none)
        sampleNHC sampleTemplate [sampleHealthyNode] [sampleCR] = some out ∧
      getCR out.store sampleHealthyNode.name = none :=
  c10_healthy_node_object_deleted 301 sampleTests (fun _ => false) (.intVal 0) []
    (false, none) sampleNHC sampleTemplate sampleTemplateSpec [sampleHealthyNode]
    [sampleCR] sampleHealthyNode rfl (by simp) (List.mem_cons_self sampleHealthyNode [])
    rfl
    (fun cr hcr => by
      rw [show getCR [sampleCR] sampleHealthyNode.name = some sampleCR from rfl] at hcr
      cases hcr
      rfl)

end Medik8s
